import Mathlib

/-!
Shallow embedding of `src/ib_ape_trader.py`, a single-cycle equity-trading
script.  External effects (HTTP responses from the trending-stocks feed,
broker replies, order statuses) are supplied by an explicit environment
record; the various sleeps in the script only consume wall-clock time and
are modelled as no-ops; exact rational arithmetic stands in for Python
floats.  Python-specific value semantics that the script relies on
(truncating `int()`, falsy `0.0`, tuple-unpacking a `dict`, `datetime.time`
argument checking) are modelled by dedicated helper functions, each
documented at its definition.
-/

attribute [local semireducible] Rat.add Rat.sub Rat.mul Rat.inv

/-- Decidable equality for `Except`, needed to evaluate run results with `decide`. -/
def exceptDecEq {ε α : Type} [DecidableEq ε] [DecidableEq α] : DecidableEq (Except ε α) := fun a b =>
  match a, b with
  | .error e1, .error e2 =>
    if h : e1 = e2 then .isTrue (by rw [h]) else .isFalse (fun hc => by cases hc; exact h rfl)
  | .error _, .ok _ => .isFalse (fun hc => by cases hc)
  | .ok _, .error _ => .isFalse (fun hc => by cases hc)
  | .ok a1, .ok a2 =>
    if h : a1 = a2 then .isTrue (by rw [h]) else .isFalse (fun hc => by cases hc; exact h rfl)

instance {ε α : Type} [DecidableEq ε] [DecidableEq α] : DecidableEq (Except ε α) := exceptDecEq

/-- Kinds of Python exceptions the script can raise at run time. -/
inductive PyError where
  | typeError (msg : String)
  | valueError (msg : String)
  | exceptionMsg (msg : String)
deriving DecidableEq

/-- Python `int(x)` applied to a float value: truncation toward zero
(floor for nonnegative arguments, ceiling for negative ones). -/
def pyInt (q : ℚ) : ℤ := if 0 ≤ q then ⌊q⌋ else ⌈q⌉

/-- A contract as built on line 92 by `Stock(stock, 'SMART', 'USD')`;
the second positional argument is the `exchange` (trading venue) field. -/
structure Contract where
  symbol : String
  exchange : String
  currency : String
deriving DecidableEq

/-- A market order submitted through `ib.placeOrder(contract, order)`. -/
structure Order where
  side : String
  contract : Contract
  quantity : ℚ
deriving DecidableEq

/-- One entry of the `positions` list built on line 105:
the tuple `(contract, quantity, exchange)`. -/
abbrev Position := Contract × ℤ × String

/-- What the trending-stocks HTTP endpoint does on one attempt: either the
request fails (transport error or non-success status, both caught on
line 41), or it returns a parsed JSON `results` array, modelled as the
already-extracted `(ticker, exchange)` pairs. -/
inductive FetchOutcome where
  | failure (msg : String)
  | response (results : List (String × String))
deriving DecidableEq

/-- The `try` body of one `fetch_trending_stocks` attempt (lines 34 to 40):
take the first 10 results; raise `ValueError` when the list is empty,
otherwise return it. -/
def attemptEval : FetchOutcome → Except String (List (String × String))
  | .failure msg => .error msg
  | .response results =>
    let stocks := results.take 10
    if stocks.isEmpty then .error "No stocks received from API" else .ok stocks

/-- Boolean success test on an `Except` value. -/
def exceptIsOk {ε α : Type} : Except ε α → Bool
  | .ok _ => true
  | .error _ => false

/-- Result of a bounded-retry loop: the returned value or terminal error,
how many attempts were made, and the sleeps performed (in seconds, in order). -/
structure RetryResult (α : Type) where
  result : Except String α
  calls : ℕ
  sleeps : List ℕ
deriving DecidableEq

/-- The retry loop of `fetch_trending_stocks` (lines 32 to 44): the first
argument of the recursion is the number of attempts left, the second the
index of the next attempt in `env`.  A failed attempt logs, sleeps `delay`
seconds and retries; running out of attempts raises the terminal error. -/
def fetchGo (env : ℕ → FetchOutcome) (delay : ℕ) : ℕ → ℕ → RetryResult (List (String × String))
  | 0, _ => ⟨.error "Failed to fetch trending stocks after multiple attempts.", 0, []⟩
  | r + 1, i =>
    match attemptEval (env i) with
    | .ok stocks => ⟨.ok stocks, 1, []⟩
    | .error _ =>
      let rest := fetchGo env delay r (i + 1)
      ⟨rest.result, rest.calls + 1, delay :: rest.sleeps⟩

/-- Lines 30 to 44: `fetch_trending_stocks(retries, delay)` with the attempt
outcomes supplied by `env`. -/
def fetch_trending_stocks (env : ℕ → FetchOutcome) (retries : ℕ) (delay : ℕ) :
    RetryResult (List (String × String)) :=
  fetchGo env delay retries 0

/-- The retry loop of `connect_ib` (lines 49 to 55): `ok i` tells whether the
i-th connection attempt succeeds; a failed attempt sleeps 5 seconds. -/
def connectGo (ok : ℕ → Bool) : ℕ → ℕ → RetryResult Unit
  | 0, _ => ⟨.error "Failed to connect to Interactive Brokers after multiple attempts.", 0, []⟩
  | r + 1, i =>
    if ok i then ⟨.ok (), 1, []⟩
    else
      let rest := connectGo ok r (i + 1)
      ⟨rest.result, rest.calls + 1, 5 :: rest.sleeps⟩

/-- Lines 47 to 56: `connect_ib()` makes up to 3 attempts. -/
def connect_ib (ok : ℕ → Bool) : RetryResult Unit :=
  connectGo ok 3 0

/-- External world of one run: broker connection attempts, currently held
broker positions, trending-feed attempt outcomes, the account net
liquidation value, per-buy-iteration market data `(last, close)`,
per-buy-iteration buy order status, and per-sell-iteration
`(status, avgFillPrice)`. -/
structure Env where
  connectOk : ℕ → Bool
  heldPositions : List (Contract × ℚ)
  fetchOutcomes : ℕ → FetchOutcome
  netLiquidation : ℚ
  mktData : ℕ → ℚ × ℚ
  buyStatus : ℕ → String
  sellStatus : ℕ → String × ℚ

/-- Line 9: `RESERVE_PERCENTAGE = 0.25`. -/
def RESERVE_PERCENTAGE : ℚ := 25 / 100

/-- Lines 59 to 62: available funds are `(net_liquidation - reserve_fund) * 0.95`. -/
def get_available_funds (net_liquidation reserve_fund : ℚ) : ℚ :=
  (net_liquidation - reserve_fund) * (95 / 100)

/-- Lines 13 to 19: the `MARKET_TIMES` dict.  Each value is itself a Python
dict with the two keys `"open"` and `"close"`, modelled as an association
list in insertion order. -/
def MARKET_TIMES : List (String × List (String × (ℕ × ℕ))) :=
  [ ("NYSE", [("open", (9, 30)), ("close", (15, 55))]),
    ("NASDAQ", [("open", (9, 30)), ("close", (15, 55))]),
    ("TSX", [("open", (9, 30)), ("close", (15, 55))]),
    ("LSE", [("open", (8, 0)), ("close", (16, 25))]),
    ("TSE", [("open", (9, 0)), ("close", (13, 25))]) ]

/-- Lines 65 to 66: `MARKET_TIMES.get(exchange, MARKET_TIMES["NYSE"])`. -/
def get_market_times (exchange : String) : List (String × (ℕ × ℕ)) :=
  (MARKET_TIMES.lookup exchange).getD ((MARKET_TIMES.lookup "NYSE").getD [])

/-- Python tuple-unpacking `a, b = d` applied to a dict `d`: iterating a dict
yields its keys in insertion order, so a two-entry dict unpacks into its two
KEY strings (and any other entry count raises `ValueError`). -/
def dictUnpack2 (d : List (String × (ℕ × ℕ))) : Option (String × String) :=
  match d with
  | [e1, e2] => some (e1.1, e2.1)
  | _ => none

/-- Python `datetime.time(*s)` where `s` is a string: star-unpacking a string
supplies its characters as separate one-character `str` arguments, and
`datetime.time` requires integer arguments, so every nonempty string raises
`TypeError`; the empty string gives `time()`, i.e. midnight. -/
def pyTimeStar (s : String) : Except PyError (ℕ × ℕ) :=
  if s.isEmpty then .ok (0, 0) else .error (.typeError "an integer is required")

/-- Line 96: `market_data.last if market_data.last else market_data.close`,
with Python float truthiness (`0.0` is falsy) on exact rationals. -/
def marketPriceOf (md : ℚ × ℚ) : ℚ :=
  if md.1 ≠ 0 then md.1 else md.2

/-- Line 97: `int(allocation_per_stock / market_price) if market_price > 0 else 0`. -/
def pyQuantity (allocation_per_stock market_price : ℚ) : ℤ :=
  if 0 < market_price then pyInt (allocation_per_stock / market_price) else 0

/-- Mutable state of the buy loop (lines 89 to 105): the `positions` list,
the shared `market_price` loop variable, the buy orders placed so far and
the symbols of the warning log lines emitted on line 104. -/
structure BuyState where
  positions : List Position
  marketPrice : ℚ
  orders : List Order
  warnings : List String
deriving DecidableEq

/-- One iteration of the buy loop (lines 91 to 105) for the `i`-th ticker:
build the SMART/USD contract, read the market snapshot, compute the
quantity; when it is positive place a market buy, log a warning if the
resulting status is neither Filled nor Submitted, and append the position
(the append on line 105 is unconditional within the `quantity > 0` branch). -/
def buyStep (alloc : ℚ) (env : Env) (i : ℕ) (st : BuyState) (tk : String × String) : BuyState :=
  let contract : Contract := ⟨tk.1, "SMART", "USD"⟩
  let market_price := marketPriceOf (env.mktData i)
  let quantity := pyQuantity alloc market_price
  if 0 < quantity then
    let status := env.buyStatus i
    let warn := if status = "Filled" ∨ status = "Submitted" then [] else [tk.1]
    { positions := st.positions ++ [(contract, quantity, tk.2)],
      marketPrice := market_price,
      orders := st.orders ++ [⟨"BUY", contract, (quantity : ℚ)⟩],
      warnings := st.warnings ++ warn }
  else
    { st with marketPrice := market_price }

/-- The buy loop, iterating `buyStep` with an explicit iteration index. -/
def buyPhaseGo (alloc : ℚ) (env : Env) : ℕ → List (String × String) → BuyState → BuyState
  | _, [], st => st
  | i, tk :: rest, st => buyPhaseGo alloc env (i + 1) rest (buyStep alloc env i st tk)

/-- Lines 89 to 105: the whole buy phase, starting from an empty positions
list (the initial value of `market_price` is irrelevant: the variable is
assigned on line 96 before any read). -/
def buyPhase (alloc : ℚ) (env : Env) (stocks : List (String × String)) : BuyState :=
  buyPhaseGo alloc env 0 stocks ⟨[], 0, [], []⟩

/-- The sell loop (lines 109 to 118) with an explicit iteration index `j`.
Line 110 tuple-unpacks the dict returned by `get_market_times`, so
`close_time` is bound to the KEY string of the second entry; line 111 then
evaluates `datetime.time(*close_time)`, whose outcome `pyTimeStar` models.
The busy-wait itself only consumes wall-clock time.  After the wait a market
sell for the full quantity is placed and, for a Filled status, profit is
accumulated against the shared `market_price` variable from the buy loop. -/
def sellPhaseGo (env : Env) (market_price : ℚ) :
    ℕ → List Position → ℚ → List Order → Except PyError (ℚ × List Order)
  | _, [], total_profit, orders => .ok (total_profit, orders)
  | j, (contract, quantity, exchange) :: rest, total_profit, orders =>
    match dictUnpack2 (get_market_times exchange) with
    | none => .error (.valueError "unpacking mismatch")
    | some ks =>
      match pyTimeStar ks.2 with
      | .error e => .error e
      | .ok _ =>
        let sr := env.sellStatus j
        let orders2 := orders ++ [⟨"SELL", contract, (quantity : ℚ)⟩]
        let total2 :=
          if sr.1 = "Filled" then total_profit + (sr.2 - market_price) * (quantity : ℚ)
          else total_profit
        sellPhaseGo env market_price (j + 1) rest total2 orders2

/-- Lines 108 to 118: the whole sell phase, starting from `total_profit = 0`. -/
def sellPhase (env : Env) (market_price : ℚ) (positions : List Position) :
    Except PyError (ℚ × List Order) :=
  sellPhaseGo env market_price 0 positions 0 []

/-- Lines 69 to 75: submit a market sell for the full quantity of every
currently held broker position, without inspecting the results. -/
def close_all_positions (held : List (Contract × ℚ)) : List Order :=
  held.map (fun p => ⟨"SELL", p.1, p.2⟩)

/-- Lines 121 to 122: compute `daily_reserve` from the day profit and add it
to the reserve fund, returning `(daily_reserve, new reserve_fund)`. -/
def reconcile (total_profit reserve_fund : ℚ) : ℚ × ℚ :=
  let daily_reserve := total_profit * RESERVE_PERCENTAGE
  (daily_reserve, reserve_fund + daily_reserve)

/-- The figures logged at the end of a completed run (line 123). -/
structure FinalStats where
  totalProfit : ℚ
  dailyReserve : ℚ
  reserveFund : ℚ
deriving DecidableEq

/-- Observable effects of one run, grouped by program phase: liquidation
sells, buy-phase orders, sell-phase orders, the `positions` list built by
the buy phase, buy-warning symbols, and each increment applied to
`reserve_fund` on line 122. -/
structure Trace where
  liqOrders : List Order
  buyOrders : List Order
  sellOrders : List Order
  positions : List Position
  warnings : List String
  reserveUpdates : List ℚ
deriving DecidableEq

/-- Lines 86 to 123 of `main()`: everything after the trending list is in
hand.  Compute the available funds (with the run-local `reserve_fund`
set to 0 on line 82) and the per-stock allocation, run the buy
loop, run the sell loop, then compute and record the daily reserve. -/
def afterFetch (env : Env) (liq : List Order) (stocks : List (String × String)) :
    Except PyError FinalStats × Trace :=
  let reserve_fund : ℚ := 0
  let available_funds := get_available_funds env.netLiquidation reserve_fund
  let allocation_per_stock := available_funds / (stocks.length : ℚ)
  let bs := buyPhase allocation_per_stock env stocks
  match sellPhase env bs.marketPrice bs.positions with
  | .error e => (.error e, ⟨liq, bs.orders, [], bs.positions, bs.warnings, []⟩)
  | .ok pr =>
    let rc := reconcile pr.1 reserve_fund
    (.ok ⟨pr.1, rc.1, rc.2⟩, ⟨liq, bs.orders, pr.2, bs.positions, bs.warnings, [rc.1]⟩)

/-- Lines 78 to 126: the `main()` function (the name `main` itself is
reserved by Lean).  Connect (an uncaught retry exhaustion aborts the run),
liquidate prior holdings, fetch trending stocks (ditto), then hand over to
`afterFetch`.  The pair returned is the run outcome (the final log figures,
or the uncaught exception) together with the observable trace. -/
def mainRun (env : Env) : Except PyError FinalStats × Trace :=
  match (connect_ib env.connectOk).result with
  | .error msg => (.error (.exceptionMsg msg), ⟨[], [], [], [], [], []⟩)
  | .ok _ =>
    let liq := close_all_positions env.heldPositions
    match (fetch_trending_stocks env.fetchOutcomes 3 5).result with
    | .error msg => (.error (.exceptionMsg msg), ⟨liq, [], [], [], [], []⟩)
    | .ok stocks => afterFetch env liq stocks

/-! ### Helper lemmas about the sell phase -/

/-- Whatever the exchange, `get_market_times` returns a two-entry dict whose
keys are `"open"` and `"close"`, so the tuple-unpacking on line 110 binds
`close_time` to the string `"close"`. -/
lemma get_market_times_keys (exchange : String) :
    dictUnpack2 (get_market_times exchange) = some ("open", "close") := by
  unfold get_market_times MARKET_TIMES
  simp only [List.lookup]
  repeat' split
  all_goals first
  | rfl
  | simp_all

/-- The body of the sell loop raises `TypeError` on every position: line 111
builds `datetime.time(*close_time)` with `close_time` the string `"close"`. -/
lemma sellPhaseGo_cons_error (env : Env) (mp : ℚ) (j : ℕ) (c : Contract) (q : ℤ)
    (exchange : String) (rest : List Position) (profit : ℚ) (orders : List Order) :
    sellPhaseGo env mp j ((c, q, exchange) :: rest) profit orders =
      .error (PyError.typeError "an integer is required") := by
  simp only [sellPhaseGo, get_market_times_keys]
  rfl

/-- Complete characterization of the sell phase: an empty positions list
returns zero profit and no orders; a nonempty one raises `TypeError` before
any sell order is placed. -/
lemma sellPhase_char (env : Env) (mp : ℚ) (ps : List Position) :
    sellPhase env mp ps =
      if ps.isEmpty then .ok ((0 : ℚ), ([] : List Order))
      else .error (PyError.typeError "an integer is required") := by
  cases ps with
  | nil => rfl
  | cons p rest =>
    rcases p with ⟨c, q, exchange⟩
    simp [sellPhase, sellPhaseGo_cons_error]

/-! ### Buy-phase characterization -/

/-- Specification-style description of what the buy loop produces from
iteration index `i` on: one position, one BUY order (always on the SMART/USD
contract) per ticker with positive computed quantity, and one warning per
such ticker whose buy status is neither Filled nor Submitted.  Used to state
the amended Bought-phase claim and compared against `buyPhaseGo`. -/
def expectedBuy (alloc : ℚ) (env : Env) :
    ℕ → List (String × String) → List Position × List Order × List String
  | _, [] => ([], [], [])
  | i, tk :: rest =>
    let q := pyQuantity alloc (marketPriceOf (env.mktData i))
    let r := expectedBuy alloc env (i + 1) rest
    if 0 < q then
      ((⟨tk.1, "SMART", "USD"⟩, q, tk.2) :: r.1,
       (⟨"BUY", ⟨tk.1, "SMART", "USD"⟩, (q : ℚ)⟩ : Order) :: r.2.1,
       (if env.buyStatus i = "Filled" ∨ env.buyStatus i = "Submitted" then r.2.2
        else tk.1 :: r.2.2))
    else r

/-- The final value of the shared `market_price` loop variable after the buy
loop runs over `stocks` from index `i`, starting from current value `mp`. -/
def lastPrice (env : Env) : ℕ → ℚ → List (String × String) → ℚ
  | _, mp, [] => mp
  | i, _, _ :: rest => lastPrice env (i + 1) (marketPriceOf (env.mktData i)) rest

/-- The buy loop is fully described by `expectedBuy` and `lastPrice`. -/
lemma buyPhaseGo_spec (alloc : ℚ) (env : Env) :
    ∀ (stocks : List (String × String)) (i : ℕ) (st : BuyState),
      buyPhaseGo alloc env i stocks st =
        ⟨st.positions ++ (expectedBuy alloc env i stocks).1,
         lastPrice env i st.marketPrice stocks,
         st.orders ++ (expectedBuy alloc env i stocks).2.1,
         st.warnings ++ (expectedBuy alloc env i stocks).2.2⟩ := by
  intro stocks
  induction stocks with
  | nil => intro i st; simp [buyPhaseGo, expectedBuy, lastPrice]
  | cons tk rest ih =>
    intro i st
    simp only [buyPhaseGo]
    rw [ih]
    by_cases hq : 0 < pyQuantity alloc (marketPriceOf (env.mktData i))
    · by_cases hw : env.buyStatus i = "Filled" ∨ env.buyStatus i = "Submitted"
      · simp [buyStep, expectedBuy, lastPrice, hq, hw]
      · simp [buyStep, expectedBuy, lastPrice, hq, hw]
    · simp [buyStep, expectedBuy, lastPrice, hq]

/-! ### Retry-loop lemmas -/

lemma fetchGo_success (env : ℕ → FetchOutcome) (delay : ℕ) :
    ∀ (N retries i : ℕ) (r : List (String × String)),
      N < retries →
      (∀ k, k < N → exceptIsOk (attemptEval (env (i + k))) = false) →
      attemptEval (env (i + N)) = .ok r →
      fetchGo env delay retries i = ⟨.ok r, N + 1, List.replicate N delay⟩ := by
  intro N
  induction N with
  | zero =>
    intro retries i r hlt hfail hsucc
    cases retries with
    | zero => omega
    | succ rr =>
      simp only [fetchGo]
      rw [Nat.add_zero] at hsucc
      rw [hsucc]
      simp
  | succ m ih =>
    intro retries i r hlt hfail hsucc
    cases retries with
    | zero => omega
    | succ rr =>
      have h0 : exceptIsOk (attemptEval (env i)) = false := by
        have h := hfail 0 (Nat.succ_pos m)
        simpa using h
      simp only [fetchGo]
      cases hA : attemptEval (env i) with
      | ok v => rw [hA] at h0; simp [exceptIsOk] at h0
      | error e =>
        have hrec : fetchGo env delay rr (i + 1) = ⟨.ok r, m + 1, List.replicate m delay⟩ := by
          apply ih rr (i + 1) r (by omega)
          · intro k hk
            have h := hfail (k + 1) (by omega)
            have he : i + (k + 1) = i + 1 + k := by omega
            rw [he] at h
            exact h
          · have he : i + (m + 1) = i + 1 + m := by omega
            rw [he] at hsucc
            exact hsucc
        rw [hrec]
        simp [List.replicate]

lemma fetchGo_exhaust (env : ℕ → FetchOutcome) (delay : ℕ) :
    ∀ (retries i : ℕ),
      (∀ k, k < retries → exceptIsOk (attemptEval (env (i + k))) = false) →
      fetchGo env delay retries i =
        ⟨.error "Failed to fetch trending stocks after multiple attempts.",
         retries, List.replicate retries delay⟩ := by
  intro retries
  induction retries with
  | zero => intro i _; rfl
  | succ rr ih =>
    intro i hfail
    have h0 : exceptIsOk (attemptEval (env i)) = false := by
      have h := hfail 0 (Nat.succ_pos rr)
      simpa using h
    simp only [fetchGo]
    cases hA : attemptEval (env i) with
    | ok v => rw [hA] at h0; simp [exceptIsOk] at h0
    | error e =>
      rw [ih (i + 1) (fun k hk => by
        have h := hfail (k + 1) (by omega)
        have he : i + (k + 1) = i + 1 + k := by omega
        rw [he] at h
        exact h)]
      simp [List.replicate]

lemma connectGo_exhaust (ok : ℕ → Bool) :
    ∀ (retries i : ℕ),
      (∀ k, k < retries → ok (i + k) = false) →
      connectGo ok retries i =
        ⟨.error "Failed to connect to Interactive Brokers after multiple attempts.",
         retries, List.replicate retries 5⟩ := by
  intro retries
  induction retries with
  | zero => intro i _; rfl
  | succ rr ih =>
    intro i hfail
    have h0 : ok i = false := by
      have h := hfail 0 (Nat.succ_pos rr)
      simpa using h
    simp only [connectGo, h0]
    rw [ih (i + 1) (fun k hk => by
      have h := hfail (k + 1) (by omega)
      have he : i + (k + 1) = i + 1 + k := by omega
      rw [he] at h
      exact h)]
    simp [List.replicate]

/-! ### Concrete environments exhibiting the sell-phase defect -/

/-- Run with one open NYSE position: connection succeeds at once, no prior
holdings, the feed returns the single ticker AAPL on NYSE, the account holds
1000, AAPL trades at 100, and the broker fills every order (sell at 260). -/
def envC1 : Env :=
  { connectOk := fun _ => true,
    heldPositions := [],
    fetchOutcomes := fun _ => .response [("AAPL", "NYSE")],
    netLiquidation := 1000,
    mktData := fun _ => (100, 0),
    buyStatus := fun _ => "Filled",
    sellStatus := fun _ => ("Filled", 260) }

/-- Same shape as `envC1` but with a ticker on LSE and a Submitted buy. -/
def envC2 : Env :=
  { connectOk := fun _ => true,
    heldPositions := [],
    fetchOutcomes := fun _ => .response [("TSLA", "LSE")],
    netLiquidation := 1000,
    mktData := fun _ => (50, 0),
    buyStatus := fun _ => "Submitted",
    sellStatus := fun _ => ("Filled", 60) }

/-- Run in which a Filled sell at 260 against a buy price of 250 for 38
shares ought to contribute (260 - 250) * 38 to the total profit. -/
def envC3 : Env :=
  { connectOk := fun _ => true,
    heldPositions := [],
    fetchOutcomes := fun _ => .response [("AAPL", "NASDAQ")],
    netLiquidation := 10000,
    mktData := fun _ => (250, 0),
    buyStatus := fun _ => "Filled",
    sellStatus := fun _ => ("Filled", 260) }

/-- C1: claimed, the AwaitingClose phase blocks until the close time that
MARKET_TIMES gives for the position exchange and only then submits the sell.
In the code, line 110 tuple-unpacks the dict returned by get_market_times,
binding close_time to the KEY string "close", and datetime.time(*close_time)
raises TypeError, so with one bought NYSE position the run aborts without
waiting for the (15, 55) close pair (which the calendar does hold for NYSE)
and without submitting any sell order. -/
theorem C1_awaiting_close_crashes :
    (mainRun envC1).1 = .error (PyError.typeError "an integer is required") ∧
    (mainRun envC1).2.positions.length = 1 ∧
    (mainRun envC1).2.sellOrders = [] ∧
    (get_market_times "NYSE").lookup "close" = some (15, 55) := by
  decide

/-- C2: claimed, every OpenPosition created in the buy phase is matched by
exactly one sell-order submission before the run terminates.  In the code the
run raises TypeError at the first sell-loop iteration, so the one position
created here receives zero sell submissions (no sell order of any kind is
placed in this run). -/
theorem C2_position_without_sell :
    (mainRun envC2).2.positions.length = 1 ∧
    (mainRun envC2).2.sellOrders = [] ∧
    (mainRun envC2).2.liqOrders = [] ∧
    (mainRun envC2).1 = .error (PyError.typeError "an integer is required") := by
  decide

/-- C3: claimed, the Sold phase accumulates (avgFillPrice - reference price)
times quantity for Filled sells.  In the code the Sold phase is never reached:
with a bought position whose sell would report Filled at 260 against a
reference price of 250 for 38 shares, the run aborts with TypeError before
placing any sell, and no profit is ever accumulated. -/
theorem C3_profit_never_accumulated :
    (mainRun envC3).2.positions = [(⟨"AAPL", "SMART", "USD"⟩, 38, "NASDAQ")] ∧
    (mainRun envC3).1 = .error (PyError.typeError "an integer is required") ∧
    (mainRun envC3).2.sellOrders = [] := by
  decide

/-! ### Quantity computation and the all-zero-quantity run -/

/-- Every position the buy loop records has positive quantity. -/
lemma expectedBuy_positions_pos (alloc : ℚ) (env : Env) :
    ∀ (stocks : List (String × String)) (i : ℕ) (p : Position),
      p ∈ (expectedBuy alloc env i stocks).1 → 0 < p.2.1 := by
  intro stocks
  induction stocks with
  | nil => intro i p hp; simp [expectedBuy] at hp
  | cons tk rest ih =>
    intro i p hp
    by_cases hq : 0 < pyQuantity alloc (marketPriceOf (env.mktData i))
    · simp only [expectedBuy, if_pos hq] at hp
      rcases List.mem_cons.mp hp with h | h
      · rw [h]; exact hq
      · exact ih (i + 1) p h
    · simp only [expectedBuy, if_neg hq] at hp
      exact ih (i + 1) p hp

/-- Every buy order the buy loop places has positive quantity. -/
lemma expectedBuy_orders_pos (alloc : ℚ) (env : Env) :
    ∀ (stocks : List (String × String)) (i : ℕ) (o : Order),
      o ∈ (expectedBuy alloc env i stocks).2.1 → 0 < o.quantity := by
  intro stocks
  induction stocks with
  | nil => intro i o ho; simp [expectedBuy] at ho
  | cons tk rest ih =>
    intro i o ho
    by_cases hq : 0 < pyQuantity alloc (marketPriceOf (env.mktData i))
    · simp only [expectedBuy, if_pos hq] at ho
      rcases List.mem_cons.mp ho with h | h
      · rw [h]
        show (0 : ℚ) < ((pyQuantity alloc (marketPriceOf (env.mktData i)) : ℤ) : ℚ)
        exact_mod_cast hq
      · exact ih (i + 1) o h
    · simp only [expectedBuy, if_neg hq] at ho
      exact ih (i + 1) o ho

/-- When every remaining iteration computes quantity 0, the buy loop
produces nothing. -/
lemma expectedBuy_zero (alloc : ℚ) (env : Env) :
    ∀ (stocks : List (String × String)) (i : ℕ),
      (∀ k, k < stocks.length → pyQuantity alloc (marketPriceOf (env.mktData (i + k))) = 0) →
      expectedBuy alloc env i stocks = ([], [], []) := by
  intro stocks
  induction stocks with
  | nil => intro i _; rfl
  | cons tk rest ih =>
    intro i h
    have h0 : pyQuantity alloc (marketPriceOf (env.mktData i)) = 0 := by
      have := h 0 (by simp)
      simpa using this
    have hrest := ih (i + 1) (fun k hk => by
      have hh := h (k + 1) (by simpa using Nat.succ_lt_succ hk)
      rw [show i + (k + 1) = i + 1 + k by omega] at hh
      exact hh)
    simp [expectedBuy, h0, hrest]

/-- C4 counterexample: the claim says the share quantity equals
floor(perTickerBudget / price) whenever price > 0.  With budget -10
(reachable, since a negative net liquidation value makes the allocation
negative) and price 3 > 0, the code computes int(-10 / 3) = -3 while the
floor is -4, so the claimed formula is false. -/
theorem C4_floor_counterexample :
    (0 : ℚ) < 3 ∧ pyQuantity (-10) 3 = -3 ∧ (⌊((-10 : ℚ) / 3)⌋ : ℤ) = -4 ∧
    pyQuantity (-10) 3 ≠ ⌊((-10 : ℚ) / 3)⌋ := by
  decide

/-- C4 amended: the share quantity is the truncation toward zero of
perTickerBudget / price when price > 0 (which coincides with the floor
whenever the budget is nonnegative) and 0 when price <= 0; every recorded
position and every placed buy order has positive quantity (so a 0-quantity
ticker gets neither); and a run in which every ticker computes quantity 0
ends normally with no buy orders, no positions, no sell orders,
totalProfit = 0 and dailyReserve = 0. -/
theorem C4_quantity_amended (alloc price : ℚ) (env : Env) (stocks : List (String × String)) :
    (0 < price → pyQuantity alloc price = pyInt (alloc / price)) ∧
    (0 < price → 0 ≤ alloc → pyQuantity alloc price = ⌊alloc / price⌋) ∧
    (price ≤ 0 → pyQuantity alloc price = 0) ∧
    (∀ p ∈ (buyPhase alloc env stocks).positions, 0 < p.2.1) ∧
    (exceptIsOk (connect_ib env.connectOk).result = true →
     (fetch_trending_stocks env.fetchOutcomes 3 5).result = .ok stocks →
     (∀ k, k < stocks.length →
        pyQuantity (get_available_funds env.netLiquidation 0 / (stocks.length : ℚ))
          (marketPriceOf (env.mktData k)) = 0) →
     (mainRun env).1 = .ok ⟨0, 0, 0⟩ ∧
     (mainRun env).2.buyOrders = [] ∧ (mainRun env).2.positions = [] ∧
     (mainRun env).2.sellOrders = [] ∧ (mainRun env).2.reserveUpdates = [0]) := by
  refine ⟨?_, ?_, ?_, ?_, ?_⟩
  · intro h
    simp [pyQuantity, h]
  · intro h ha
    have hq : (0 : ℚ) ≤ alloc / price := div_nonneg ha h.le
    simp [pyQuantity, pyInt, h, hq]
  · intro h
    simp [pyQuantity, not_lt.mpr h]
  · intro p hp
    rw [buyPhase, buyPhaseGo_spec] at hp
    simp only [List.nil_append] at hp
    exact expectedBuy_positions_pos alloc env stocks 0 p hp
  · intro hconn hfetch hzero
    rcases hc : (connect_ib env.connectOk).result with msg | u
    · rw [hc] at hconn
      simp [exceptIsOk] at hconn
    · have hzero0 : ∀ k, k < stocks.length →
          pyQuantity (get_available_funds env.netLiquidation 0 / (stocks.length : ℚ))
            (marketPriceOf (env.mktData (0 + k))) = 0 := by
        intro k hk
        simpa using hzero k hk
      have hbuy := buyPhaseGo_spec (get_available_funds env.netLiquidation 0 / (stocks.length : ℚ))
        env stocks 0 ⟨[], 0, [], []⟩
      rw [expectedBuy_zero _ env stocks 0 hzero0] at hbuy
      simp only [mainRun, hc, hfetch, afterFetch, buyPhase, hbuy]
      simp [sellPhase_char, reconcile, RESERVE_PERCENTAGE]

/-- Run in which the single fetched ticker has no obtainable price (last and
close both 0), so every computed quantity is 0 and the run completes with
nothing traded. -/
def envZeroQty : Env :=
  { connectOk := fun _ => true,
    heldPositions := [],
    fetchOutcomes := fun _ => .response [("GME", "NYSE")],
    netLiquidation := 1000,
    mktData := fun _ => (0, 0),
    buyStatus := fun _ => "Filled",
    sellStatus := fun _ => ("Filled", 0) }

/-- Witness for `C4_quantity_amended` at concrete inputs: budget 12 with
price 4 (positive), price -3 (nonpositive), and the all-zero-quantity run
`envZeroQty`. -/
theorem C4_quantity_witness :
    pyQuantity 12 4 = pyInt ((12 : ℚ) / 4) ∧
    pyQuantity 12 4 = ⌊(12 : ℚ) / 4⌋ ∧
    pyQuantity 12 (-3) = 0 ∧
    (mainRun envZeroQty).1 = .ok ⟨0, 0, 0⟩ ∧
    (mainRun envZeroQty).2.buyOrders = [] ∧
    (mainRun envZeroQty).2.positions = [] := by
  have ha := C4_quantity_amended 12 4 envZeroQty [("GME", "NYSE")]
  have hb := C4_quantity_amended 12 (-3) envZeroQty [("GME", "NYSE")]
  have he := ha.2.2.2.2 (by decide) (by decide) (by decide)
  exact ⟨ha.1 (by decide), ha.2.1 (by decide) (by decide), hb.2.2.1 (by decide),
    he.1, he.2.1, he.2.2.1⟩

/-- C5: investableCapital is (netLiquidationValue - reserveFund) * 0.95 as
computed by `get_available_funds`, and for every nonempty ticker list of
length n the n equal shares investableCapital / n sum exactly (in exact
rational arithmetic) to investableCapital. -/
theorem C5_equal_allocation (net_liquidation reserve_fund : ℚ) (n : ℕ) (hn : 0 < n) :
    get_available_funds net_liquidation reserve_fund =
      (net_liquidation - reserve_fund) * (95 / 100) ∧
    Finset.sum (Finset.range n)
        (fun _ => get_available_funds net_liquidation reserve_fund / (n : ℚ)) =
      get_available_funds net_liquidation reserve_fund := by
  constructor
  · rfl
  · have hne : (n : ℚ) ≠ 0 := Nat.cast_ne_zero.mpr hn.ne'
    rw [Finset.sum_const, Finset.card_range, nsmul_eq_mul]
    field_simp

/-- Witness for `C5_equal_allocation`: a 1000-value account, no reserve,
10 tickers. -/
theorem C5_allocation_witness :
    get_available_funds 1000 0 = ((1000 : ℚ) - 0) * (95 / 100) ∧
    Finset.sum (Finset.range 10)
        (fun _ => get_available_funds 1000 0 / ((10 : ℕ) : ℚ)) =
      get_available_funds 1000 0 :=
  C5_equal_allocation 1000 0 10 (by decide)

/-! ### Retry behavior claims -/

/-- Attempt stream that fails once (attempt 0) and then succeeds. -/
def envC6cx : ℕ → FetchOutcome := fun i =>
  if i = 0 then .failure "connection error" else .response [("AAPL", "NYSE")]

/-- C6 counterexample: the claim quantifies over N ≤ maxRetries failing
attempts followed by a success.  With maxRetries = 1 the environment fails
exactly N = 1 = maxRetries times (attempt 0) and would succeed on attempt 1,
but the code makes exactly 1 call and raises the terminal error instead of
returning the successful result of attempt N with N + 1 = 2 calls. -/
theorem C6_retry_counterexample :
    exceptIsOk (attemptEval (envC6cx 0)) = false ∧
    attemptEval (envC6cx 1) = .ok [("AAPL", "NYSE")] ∧
    (fetch_trending_stocks envC6cx 1 0).calls = 1 ∧
    (fetch_trending_stocks envC6cx 1 0).result =
      .error "Failed to fetch trending stocks after multiple attempts." := by
  decide

/-- C6 amended: for any N < maxRetries failing attempts followed by a
successful one, `fetch_trending_stocks` returns the successful attempt
result, calls the endpoint exactly N + 1 times, and sleeps delay seconds
exactly N times, once between each pair of consecutive attempts. -/
theorem C6_retry_amended (env : ℕ → FetchOutcome) (retries delay N : ℕ)
    (r : List (String × String)) (hN : N < retries)
    (hfail : ∀ k, k < N → exceptIsOk (attemptEval (env k)) = false)
    (hsucc : attemptEval (env N) = .ok r) :
    (fetch_trending_stocks env retries delay).result = .ok r ∧
    (fetch_trending_stocks env retries delay).calls = N + 1 ∧
    (fetch_trending_stocks env retries delay).sleeps = List.replicate N delay := by
  have h := fetchGo_success env delay N retries 0 r hN
    (fun k hk => by simpa using hfail k hk) (by simpa using hsucc)
  rw [fetch_trending_stocks, h]
  exact ⟨rfl, rfl, rfl⟩

/-- Attempt stream that fails twice (attempts 0 and 1) and then succeeds. -/
def envC6w : ℕ → FetchOutcome := fun i =>
  if i < 2 then .failure "server error" else .response [("GME", "NYSE")]

/-- Witness for `C6_retry_amended`: two failures, then a success, with
maxRetries 3 and delay 0 — exactly 3 calls, the third attempt is returned. -/
theorem C6_retry_witness :
    (fetch_trending_stocks envC6w 3 0).result = .ok [("GME", "NYSE")] ∧
    (fetch_trending_stocks envC6w 3 0).calls = 2 + 1 ∧
    (fetch_trending_stocks envC6w 3 0).sleeps = List.replicate 2 0 :=
  C6_retry_amended envC6w 3 0 2 [("GME", "NYSE")] (by decide) (by decide) (by decide)

/-- C7: after maxRetries consecutive failed attempts, the trend fetch and
the broker connection each raise their terminal error having made exactly
maxRetries calls; a run whose trend fetch is exhausted aborts with no buy
order placed and no position created, and a run whose broker connection is
exhausted aborts with no order of any kind placed. -/
theorem C7_exhaustion_aborts (fenv : ℕ → FetchOutcome) (cok : ℕ → Bool)
    (envF envC : Env) (retries delay : ℕ) :
    ((∀ k, k < retries → exceptIsOk (attemptEval (fenv k)) = false) →
      (fetch_trending_stocks fenv retries delay).result =
        .error "Failed to fetch trending stocks after multiple attempts." ∧
      (fetch_trending_stocks fenv retries delay).calls = retries) ∧
    ((∀ k, k < 3 → cok k = false) →
      (connect_ib cok).result =
        .error "Failed to connect to Interactive Brokers after multiple attempts." ∧
      (connect_ib cok).calls = 3) ∧
    ((∀ k, k < 3 → exceptIsOk (attemptEval (envF.fetchOutcomes k)) = false) →
      (mainRun envF).2.buyOrders = [] ∧ (mainRun envF).2.sellOrders = [] ∧
      (mainRun envF).2.positions = []) ∧
    ((∀ k, k < 3 → envC.connectOk k = false) →
      (mainRun envC).1 =
        .error (.exceptionMsg "Failed to connect to Interactive Brokers after multiple attempts.") ∧
      (mainRun envC).2.buyOrders = [] ∧ (mainRun envC).2.sellOrders = [] ∧
      (mainRun envC).2.liqOrders = []) := by
  refine ⟨?_, ?_, ?_, ?_⟩
  · intro hfail
    have h := fetchGo_exhaust fenv delay retries 0 (fun k hk => by simpa using hfail k hk)
    rw [fetch_trending_stocks, h]
    exact ⟨rfl, rfl⟩
  · intro hfail
    have h := connectGo_exhaust cok 3 0 (fun k hk => by simpa using hfail k hk)
    rw [connect_ib, h]
    exact ⟨rfl, rfl⟩
  · intro hfail
    have hres : (fetch_trending_stocks envF.fetchOutcomes 3 5).result =
        .error "Failed to fetch trending stocks after multiple attempts." := by
      rw [fetch_trending_stocks,
        fetchGo_exhaust envF.fetchOutcomes 5 3 0 (fun k hk => by simpa using hfail k hk)]
    rcases hc : (connect_ib envF.connectOk).result with msg | u
    · simp [mainRun, hc]
    · simp [mainRun, hc, hres]
  · intro hfail
    have hc : (connect_ib envC.connectOk).result =
        .error "Failed to connect to Interactive Brokers after multiple attempts." := by
      rw [connect_ib, connectGo_exhaust envC.connectOk 3 0 (fun k hk => by simpa using hfail k hk)]
    simp [mainRun, hc]

/-- Run whose trend fetch always fails while the connection succeeds. -/
def envC7fetch : Env :=
  { connectOk := fun _ => true,
    heldPositions := [],
    fetchOutcomes := fun _ => .failure "server error",
    netLiquidation := 1000,
    mktData := fun _ => (100, 0),
    buyStatus := fun _ => "Filled",
    sellStatus := fun _ => ("Filled", 0) }

/-- Run whose broker connection always fails, although the broker holds a
position that liquidation would otherwise sell. -/
def envC7connect : Env :=
  { connectOk := fun _ => false,
    heldPositions := [(⟨"IBM", "SMART", "USD"⟩, 5)],
    fetchOutcomes := fun _ => .response [("AAPL", "NYSE")],
    netLiquidation := 1000,
    mktData := fun _ => (100, 0),
    buyStatus := fun _ => "Filled",
    sellStatus := fun _ => ("Filled", 0) }

/-- Witness for `C7_exhaustion_aborts` on concrete always-failing streams. -/
theorem C7_exhaustion_witness :
    (fetch_trending_stocks (fun _ => .failure "server error") 3 5).result =
      .error "Failed to fetch trending stocks after multiple attempts." ∧
    (fetch_trending_stocks (fun _ => .failure "server error") 3 5).calls = 3 ∧
    (connect_ib (fun _ => false)).result =
      .error "Failed to connect to Interactive Brokers after multiple attempts." ∧
    (connect_ib (fun _ => false)).calls = 3 ∧
    (mainRun envC7fetch).2.buyOrders = [] ∧
    (mainRun envC7fetch).2.positions = [] ∧
    (mainRun envC7connect).1 =
      .error (.exceptionMsg "Failed to connect to Interactive Brokers after multiple attempts.") ∧
    (mainRun envC7connect).2.liqOrders = [] := by
  have h := C7_exhaustion_aborts (fun _ => .failure "server error") (fun _ => false)
    envC7fetch envC7connect 3 5
  have h1 := h.1 (by decide)
  have h2 := h.2.1 (by decide)
  have h3 := h.2.2.1 (by decide)
  have h4 := h.2.2.2 (by decide)
  exact ⟨h1.1, h1.2, h2.1, h2.2, h3.1, h3.2.2, h4.1, h4.2.2.2⟩

/-! ### Bought-phase recording behavior -/

/-- Run whose single buy order comes back with status Cancelled. -/
def envC8 : Env :=
  { connectOk := fun _ => true,
    heldPositions := [],
    fetchOutcomes := fun _ => .response [("GME", "NYSE")],
    netLiquidation := 1000,
    mktData := fun _ => (10, 0),
    buyStatus := fun _ => "Cancelled",
    sellStatus := fun _ => ("Filled", 0) }

/-- C8 counterexample: the claim says that when the buy status is neither
Filled nor Submitted no OpenPosition is recorded for that ticker.  In the
code the append on line 105 sits outside the status check, so a buy whose
status is Cancelled logs the warning yet the position IS recorded. -/
theorem C8_position_counterexample :
    (mainRun envC8).2.warnings = ["GME"] ∧
    (mainRun envC8).2.buyOrders = [⟨"BUY", ⟨"GME", "SMART", "USD"⟩, 95⟩] ∧
    (mainRun envC8).2.positions = [(⟨"GME", "SMART", "USD"⟩, 95, "NYSE")] := by
  decide

/-- C8 amended: for each ticker with computed quantity > 0 the buy loop
submits one buy order and records one OpenPosition REGARDLESS of the
resulting order status, and logs a warning exactly for those accepted-size
tickers whose status is neither Filled nor Submitted (the run continuing in
every case); tickers with quantity 0 produce no order, no position and no
warning.  This is the content of the `expectedBuy` characterization. -/
theorem C8_buy_phase_amended (alloc : ℚ) (env : Env) (stocks : List (String × String)) :
    (buyPhase alloc env stocks).positions = (expectedBuy alloc env 0 stocks).1 ∧
    (buyPhase alloc env stocks).orders = (expectedBuy alloc env 0 stocks).2.1 ∧
    (buyPhase alloc env stocks).warnings = (expectedBuy alloc env 0 stocks).2.2 := by
  rw [buyPhase, buyPhaseGo_spec]
  simp

/-! ### Reserve accounting -/

/-- Inversion of a completed run: the final statistics satisfy the reserve
equations and exactly one reserve increment was recorded, at run end. -/
lemma mainRun_ok_inv (env : Env) (stats : FinalStats)
    (h : (mainRun env).1 = .ok stats) :
    stats.dailyReserve = stats.totalProfit * RESERVE_PERCENTAGE ∧
    stats.reserveFund = 0 + stats.dailyReserve ∧
    (mainRun env).2.reserveUpdates = [stats.dailyReserve] := by
  rcases hM : mainRun env with ⟨res, tr⟩
  rw [hM] at h
  simp only at h
  subst h
  unfold mainRun at hM
  split at hM
  · exact absurd (congrArg Prod.fst hM).symm (by simp)
  · split at hM
    · exact absurd (congrArg Prod.fst hM).symm (by simp)
    · simp only [afterFetch] at hM
      split at hM
      · exact absurd (congrArg Prod.fst hM).symm (by simp)
      · next pr hpr =>
        have h1 := congrArg Prod.fst hM
        have h2 := congrArg Prod.snd hM
        simp only at h1 h2
        rw [← h2]
        cases h1
        exact ⟨rfl, rfl, rfl⟩

/-- C9: for every profit p and every prior reserve value, the accrual of
lines 121 to 122 yields dailyReserve = 0.25 * p independently of the prior
value and leaves prior + 0.25 * p in the reserve; moreover, on every run
that completes, the logged statistics satisfy dailyReserve =
totalProfit * RESERVE_PERCENTAGE, the final reserve equals the run-initial
value 0 plus dailyReserve, and exactly one reserve increment is recorded,
at run end. -/
theorem C9_reserve_accrual (p prior : ℚ) (env : Env) (stats : FinalStats)
    (h : (mainRun env).1 = .ok stats) :
    (reconcile p prior).1 = p * (25 / 100) ∧
    (reconcile p prior).2 = prior + p * (25 / 100) ∧
    stats.dailyReserve = stats.totalProfit * RESERVE_PERCENTAGE ∧
    stats.reserveFund = 0 + stats.dailyReserve ∧
    (mainRun env).2.reserveUpdates = [stats.dailyReserve] := by
  have hi := mainRun_ok_inv env stats h
  exact ⟨rfl, rfl, hi.1, hi.2.1, hi.2.2⟩

/-- Witness for `C9_reserve_accrual`: profit 8 against prior reserve 3, and
the completed run `envZeroQty`. -/
theorem C9_reserve_witness :
    (reconcile 8 3).1 = 8 * (25 / 100) ∧
    (reconcile 8 3).2 = 3 + 8 * (25 / 100) ∧
    (⟨0, 0, 0⟩ : FinalStats).dailyReserve =
      (⟨0, 0, 0⟩ : FinalStats).totalProfit * RESERVE_PERCENTAGE ∧
    (⟨0, 0, 0⟩ : FinalStats).reserveFund = 0 + (⟨0, 0, 0⟩ : FinalStats).dailyReserve ∧
    (mainRun envZeroQty).2.reserveUpdates = [(⟨0, 0, 0⟩ : FinalStats).dailyReserve] :=
  C9_reserve_accrual 8 3 envZeroQty ⟨0, 0, 0⟩ (by decide)

/-! ### Exchange independence of the traded contracts -/

/-- Rewrite the exchange component of one trending-feed entry. -/
def mapTick (g : String → String) (tk : String × String) : String × String :=
  (tk.1, g tk.2)

/-- Rewrite the exchange components inside one fetch outcome. -/
def mapOutcome (g : String → String) : FetchOutcome → FetchOutcome
  | .failure m => .failure m
  | .response rs => .response (rs.map (mapTick g))

/-- Rewrite every exchange string the trending feed would report. -/
def mapExchanges (g : String → String) (env : Env) : Env :=
  { env with fetchOutcomes := fun i => mapOutcome g (env.fetchOutcomes i) }

lemma attemptEval_mapOutcome (g : String → String) (o : FetchOutcome) :
    attemptEval (mapOutcome g o) =
      match attemptEval o with
      | .ok rs => .ok (rs.map (mapTick g))
      | .error m => .error m := by
  cases o with
  | failure m => rfl
  | response rs =>
    show attemptEval (.response (rs.map (mapTick g))) = _
    simp only [attemptEval]
    rw [(List.map_take (mapTick g) rs 10).symm]
    cases h10 : rs.take 10 with
    | nil => simp
    | cons a l => simp

lemma fetchGo_map (g : String → String) (env : ℕ → FetchOutcome) (delay : ℕ) :
    ∀ (retries i : ℕ),
      fetchGo (fun k => mapOutcome g (env k)) delay retries i =
        ⟨match (fetchGo env delay retries i).result with
          | .ok rs => .ok (rs.map (mapTick g))
          | .error m => .error m,
         (fetchGo env delay retries i).calls,
         (fetchGo env delay retries i).sleeps⟩ := by
  intro retries
  induction retries with
  | zero => intro i; rfl
  | succ rr ih =>
    intro i
    simp only [fetchGo, attemptEval_mapOutcome]
    cases hA : attemptEval (env i) with
    | ok v => rfl
    | error e =>
      rw [ih]

lemma lastPrice_map (g : String → String) (env : Env) :
    ∀ (stocks : List (String × String)) (i : ℕ) (mp : ℚ),
      lastPrice (mapExchanges g env) i mp (stocks.map (mapTick g)) =
        lastPrice env i mp stocks := by
  intro stocks
  induction stocks with
  | nil => intro i mp; rfl
  | cons tk rest ih =>
    intro i mp
    simp only [List.map_cons, lastPrice]
    exact ih (i + 1) _

lemma expectedBuy_map (g : String → String) (alloc : ℚ) (env : Env) :
    ∀ (stocks : List (String × String)) (i : ℕ),
      expectedBuy alloc (mapExchanges g env) i (stocks.map (mapTick g)) =
        ((expectedBuy alloc env i stocks).1.map (fun p => (p.1, p.2.1, g p.2.2)),
         (expectedBuy alloc env i stocks).2.1,
         (expectedBuy alloc env i stocks).2.2) := by
  intro stocks
  induction stocks with
  | nil => intro i; rfl
  | cons tk rest ih =>
    intro i
    simp only [List.map_cons, expectedBuy, ih, mapTick]
    by_cases hq : 0 < pyQuantity alloc (marketPriceOf (env.mktData i))
    · by_cases hw : env.buyStatus i = "Filled" ∨ env.buyStatus i = "Submitted"
      · simp [hq, hw, mapExchanges]
      · simp [hq, hw, mapExchanges]
    · simp [hq, mapExchanges]

lemma afterFetch_map (env : Env) (g : String → String) (liq : List Order)
    (stocks : List (String × String)) :
    afterFetch (mapExchanges g env) liq (stocks.map (mapTick g)) =
      ((afterFetch env liq stocks).1,
       ⟨liq, (afterFetch env liq stocks).2.buyOrders,
        (afterFetch env liq stocks).2.sellOrders,
        (afterFetch env liq stocks).2.positions.map (fun p => (p.1, p.2.1, g p.2.2)),
        (afterFetch env liq stocks).2.warnings,
        (afterFetch env liq stocks).2.reserveUpdates⟩) := by
  have hnet : (mapExchanges g env).netLiquidation = env.netLiquidation := rfl
  have hbuy1 := buyPhaseGo_spec (get_available_funds env.netLiquidation 0 / (stocks.length : ℚ))
    env stocks 0 ⟨[], 0, [], []⟩
  have hbuy2 := buyPhaseGo_spec (get_available_funds env.netLiquidation 0 / (stocks.length : ℚ))
    (mapExchanges g env) (stocks.map (mapTick g)) 0 ⟨[], 0, [], []⟩
  rw [expectedBuy_map, lastPrice_map] at hbuy2
  simp only [afterFetch, buyPhase, hnet, List.length_map]
  rw [hbuy1, hbuy2]
  rw [sellPhase_char, sellPhase_char]
  rcases hP : (expectedBuy (get_available_funds env.netLiquidation 0 / (stocks.length : ℚ))
      env 0 stocks).1 with _ | ⟨p0, prest⟩
  · simp
  · simp

lemma mainRun_map (env : Env) (g : String → String) :
    (mainRun (mapExchanges g env)).1 = (mainRun env).1 ∧
    (mainRun (mapExchanges g env)).2.buyOrders = (mainRun env).2.buyOrders ∧
    (mainRun (mapExchanges g env)).2.sellOrders = (mainRun env).2.sellOrders := by
  have hconn : (mapExchanges g env).connectOk = env.connectOk := rfl
  have hheld : (mapExchanges g env).heldPositions = env.heldPositions := rfl
  have hfetch : fetch_trending_stocks (mapExchanges g env).fetchOutcomes 3 5 =
      ⟨match (fetch_trending_stocks env.fetchOutcomes 3 5).result with
        | .ok rs => .ok (rs.map (mapTick g))
        | .error m => .error m,
       (fetch_trending_stocks env.fetchOutcomes 3 5).calls,
       (fetch_trending_stocks env.fetchOutcomes 3 5).sleeps⟩ := by
    simp only [fetch_trending_stocks]
    exact fetchGo_map g env.fetchOutcomes 5 3 0
  rcases hc : (connect_ib env.connectOk).result with m | u
  · simp [mainRun, hconn, hc]
  · rcases hf : (fetch_trending_stocks env.fetchOutcomes 3 5).result with m | stocks
    · have hf2 : (fetch_trending_stocks (mapExchanges g env).fetchOutcomes 3 5).result =
          .error m := by
        rw [hfetch]
        simp [hf]
      simp [mainRun, hconn, hc, hf, hf2, hheld]
    · have hf2 : (fetch_trending_stocks (mapExchanges g env).fetchOutcomes 3 5).result =
          .ok (stocks.map (mapTick g)) := by
        rw [hfetch]
        simp [hf]
      have ham := afterFetch_map env g (close_all_positions env.heldPositions) stocks
      simp only [mainRun, hconn, hheld, hc, hf, hf2]
      rw [ham]
      exact ⟨rfl, rfl, rfl⟩

lemma expectedBuy_orders_smart (alloc : ℚ) (env : Env) :
    ∀ (stocks : List (String × String)) (i : ℕ),
      ((expectedBuy alloc env i stocks).2.1.all
        (fun o => o.contract.exchange == "SMART" && o.contract.currency == "USD")) = true := by
  intro stocks
  induction stocks with
  | nil => intro i; rfl
  | cons tk rest ih =>
    intro i
    by_cases hq : 0 < pyQuantity alloc (marketPriceOf (env.mktData i))
    · simp only [expectedBuy, if_pos hq]
      simp [ih (i + 1)]
    · simp only [expectedBuy, if_neg hq]
      exact ih (i + 1)

lemma mainRun_sellOrders_nil (env : Env) : (mainRun env).2.sellOrders = [] := by
  simp only [mainRun]
  split
  · rfl
  · split
    · rfl
    · simp only [afterFetch]
      split
      · rfl
      · next pr hpr =>
        rw [sellPhase_char] at hpr
        split at hpr
        · injection hpr with h2
          rw [← h2]
        · exact absurd hpr (by simp)

/-- C10: every order placed by the buy and sell trading loops is on the
contract built with venue SMART and currency USD, and renaming the
exchange field of every fetched ticker changes neither the orders placed by
those loops nor the run outcome — the exchange field never reaches the
traded contract. -/
theorem C10_contract_independence (env : Env) (g : String → String) :
    ((mainRun env).2.buyOrders.all
      (fun o => o.contract.exchange == "SMART" && o.contract.currency == "USD")) = true ∧
    ((mainRun env).2.sellOrders.all
      (fun o => o.contract.exchange == "SMART" && o.contract.currency == "USD")) = true ∧
    (mainRun (mapExchanges g env)).2.buyOrders = (mainRun env).2.buyOrders ∧
    (mainRun (mapExchanges g env)).2.sellOrders = (mainRun env).2.sellOrders ∧
    (mainRun (mapExchanges g env)).1 = (mainRun env).1 := by
  have hmap := mainRun_map env g
  refine ⟨?_, ?_, hmap.2.1, hmap.2.2, hmap.1⟩
  · rcases hc : (connect_ib env.connectOk).result with m | u
    · simp [mainRun, hc]
    · rcases hf : (fetch_trending_stocks env.fetchOutcomes 3 5).result with m | stocks
      · simp [mainRun, hc, hf]
      · have hbuy := buyPhaseGo_spec
          (get_available_funds env.netLiquidation 0 / (stocks.length : ℚ)) env stocks 0
          ⟨[], 0, [], []⟩
        simp only [mainRun, hc, hf, afterFetch, buyPhase, hbuy]
        split
        · simp [expectedBuy_orders_smart]
        · simp [expectedBuy_orders_smart]
  · rw [mainRun_sellOrders_nil]
    rfl
